import Mathlib

/-!
Verification of the RAG pipeline of `backend/rag_service.py`.

The Python class `RAGService` is embedded shallowly:

* Python strings are `List Char` (`PyStr`); vector components are exact
  rationals `ℚ` standing for the float values.
* The sentence-transformer embedder is an explicit fallible parameter
  `embed : PyStr → Except ε (List ℚ)`; a raised exception is `Except.error`.
* The square root inside `np.linalg.norm` is an explicit parameter
  `sqrt : ℚ → ℚ` (so `norm v = sqrt (normSq v)`), since exact square roots
  leave `ℚ`; the code's zero tests on norms are mirrored through it.
* The OpenAI client held in `self.openai_client` is an `Option` of an
  explicit call function; `None` is fallback mode.  A non-streaming call
  returns `Except BackendError PyStr`; a streaming call returns the chunk
  contents observed before the stream either finishes or raises.
* Python's stable `list.sort(key=..., reverse=True)` is modelled by a
  stable descending insertion sort, which computes the same list as any
  stable descending sort.
-/

namespace RAG

/-- Python strings, modelled as their character lists. -/
abbrev PyStr := List Char

/-- Character list of a string literal. -/
def pys (s : String) : PyStr := s.data

/-- A knowledge-base entry as consumed by `retrieve_relevant_context`:
a dict with required keys `id`, `title`, `content` and optional keys
`category` and `embedding` (`none` models a missing key, and
`entry.get('embedding')` is also falsy on an empty list). -/
structure Entry where
  id : PyStr
  title : PyStr
  content : PyStr
  category : Option PyStr
  embedding : Option (List ℚ)
deriving DecidableEq

/-- A ranked match as built inside `retrieve_relevant_context`. -/
structure Match where
  id : PyStr
  title : PyStr
  content : PyStr
  category : PyStr
  similarity : ℚ
deriving DecidableEq

/-- `np.dot` on two vectors of equal dimension (all vectors compared in one
ranking call share the embedder's dimension). -/
def listDot (v w : List ℚ) : ℚ := (List.zipWith (fun a b => a * b) v w).sum

/-- Sum of squares of the components: the square of `np.linalg.norm`. -/
def normSq (v : List ℚ) : ℚ := listDot v v

/-- The error a float division would raise if its divisor is zero. -/
inductive DivisionError where
  | divByZero
deriving DecidableEq

/-- Division, made explicitly fallible to expose division by zero. -/
def safeDiv (a b : ℚ) : Except DivisionError ℚ :=
  if b = 0 then .error .divByZero else .ok (a / b)

/-- `cosine_similarity` from `rag_service.py`: dot product over the product
of the norms, guarded by `if norm1 == 0 or norm2 == 0: return 0.0`.
`sqrt` abstracts the square root inside `np.linalg.norm`. -/
def cosine_similarity (sqrt : ℚ → ℚ) (vec1 vec2 : List ℚ) :
    Except DivisionError ℚ :=
  let dot_product := listDot vec1 vec2
  let norm1 := sqrt (normSq vec1)
  let norm2 := sqrt (normSq vec2)
  if norm1 = 0 ∨ norm2 = 0 then .ok 0
  else safeDiv dot_product (norm1 * norm2)

/-- The float value `cosine_similarity` returns (its guard makes the
division safe, so the error branch is unreachable and defaulted to `0`). -/
def cosineSimVal (sqrt : ℚ → ℚ) (v w : List ℚ) : ℚ :=
  match cosine_similarity sqrt v w with
  | .ok q => q
  | .error _ => 0

/-- Body of the loop in `retrieve_relevant_context` for one entry:
`continue` when `entry.get('embedding')` is falsy (missing or empty),
otherwise keep the entry exactly when `similarity >= threshold`, recording
`entry.get('category', 'general')` and the similarity. -/
def entryMatch (sqrt : ℚ → ℚ) (query_embedding : List ℚ) (threshold : ℚ)
    (entry : Entry) : Option Match :=
  match entry.embedding with
  | none => none
  | some [] => none
  | some v =>
    let similarity := cosineSimVal sqrt query_embedding v
    if threshold ≤ similarity then
      some { id := entry.id, title := entry.title, content := entry.content,
             category := entry.category.getD (pys ( "general")),
             similarity := similarity }
    else none

/-- The `results` list of `retrieve_relevant_context` before sorting. -/
def candidates (sqrt : ℚ → ℚ) (query_embedding : List ℚ)
    (knowledge_base : List Entry) (threshold : ℚ) : List Match :=
  knowledge_base.filterMap (entryMatch sqrt query_embedding threshold)

/-- Insert a match into a descending list after every strictly greater
element.  Together with `sortDesc` this models Python's
`results.sort(key=lambda x: x['similarity'], reverse=True)`: Python's sort
is stable and sorts descending under `reverse=True`, and the stable
descending ordering of a list is unique, so any stable descending sort
computes this same list. -/
def insertDesc (x : Match) : List Match → List Match
  | [] => [x]
  | y :: ys =>
    if x.similarity < y.similarity then y :: insertDesc x ys
    else x :: y :: ys

/-- Stable descending sort by similarity (see `insertDesc`). -/
def sortDesc : List Match → List Match
  | [] => []
  | x :: xs => insertDesc x (sortDesc xs)

/-- `retrieve_relevant_context`: return `[]` on an empty knowledge base
before embedding the query; otherwise embed the query (propagating an
embedding failure), score the entries, keep those at or above the
threshold, sort by similarity descending (stable) and truncate to the
first `top_k`.  `top_k` is the nonnegative slice bound `results[:top_k]`
(default 3); `threshold` defaults to `0.3`. -/
def retrieve_relevant_context {ε : Type} (sqrt : ℚ → ℚ)
    (embed : PyStr → Except ε (List ℚ)) (query : PyStr)
    (knowledge_base : List Entry) (top_k : ℕ) (threshold : ℚ) :
    Except ε (List Match) :=
  if knowledge_base = [] then .ok []
  else
    match embed query with
    | .error e => .error e
    | .ok query_embedding =>
      .ok ((sortDesc (candidates sqrt query_embedding knowledge_base
        threshold)).take top_k)

/-- The whitespace characters Python's `str.strip()` removes (ASCII part;
the texts involved carry no exotic unicode spaces). -/
def isPySpace (c : Char) : Bool :=
  c == ' ' || c == '\t' || c == '\n' || c == '\x0d' || c == '\x0b' || c == '\x0c'

/-- Python `str.strip()`. -/
def pyStrip (s : PyStr) : PyStr :=
  ((s.dropWhile isPySpace).reverse.dropWhile isPySpace).reverse

/-- The fixed message `_generate_simple_response` returns when no context
was retrieved. -/
def noContextResponse : PyStr :=
  pys ( "Hey there! I checked my knowledge base but couldn\x27t find specific information about that. Here\x27s what might help:\n\n• Try rephrasing your question in a different way\n• Add the information you\x27re looking for to the knowledge base\n• Ask about topics that are already in the knowledge base\n\nI\x27m here to help with anything else you need! 😊\n\n💡 Tip: For smarter, more conversational responses, configure an OpenAI API key. Run \x27python setup_openai.py\x27 in the backend directory.")

/-- The block `_generate_simple_response` appends for one context entry:
title, optional category (skipped when falsy, i.e. empty), newline, then
the first 300 characters of the stripped content with an ellipsis marker
when it was truncated, then a blank line. -/
def matchBlock (ctx : Match) : PyStr :=
  pys ( "📄 **") ++ ctx.title ++ pys ( "**")
    ++ (if ctx.category ≠ [] then pys ( " (") ++ ctx.category ++ pys ( ")") else [])
    ++ pys ( "\n")
    ++ (let content := pyStrip ctx.content
        content.take 300 ++ (if 300 < content.length then pys ( "...") else []))
    ++ pys ( "\n\n")

/-- The closing help note of the template-based response. -/
def closingNote : PyStr :=
  pys ( "Hope this helps! Let me know if you need anything else. 😊\n\n---\n💡 For smarter, more conversational responses, configure an OpenAI API key.\nRun: python setup_openai.py")

/-- `_generate_simple_response`: the deterministic fallback generation
(no LLM).  The `query` parameter is accepted but unused, as in the code. -/
def _generate_simple_response (query : PyStr) (context : List Match) : PyStr :=
  if context = [] then noContextResponse
  else
    pys ( "Great question! Here\x27s what I found for you:\n\n")
      ++ (context.map matchBlock).flatten ++ closingNote

/-- Message roles of the OpenAI chat API. -/
inductive Role where
  | system
  | user
  | assistant
deriving DecidableEq

/-- One role-tagged message of the messages array. -/
structure Message where
  role : Role
  content : PyStr
deriving DecidableEq

/-- One stored conversation turn, as read from chat history
(`msg['user_message']`, `msg['bot_response']`). -/
structure ConversationTurn where
  user_message : PyStr
  bot_response : PyStr
deriving DecidableEq

/-- The fixed system instruction built in `_build_messages`. -/
def system_message : PyStr :=
  pys ( "You are a friendly and helpful customer support representative. Your goal is to assist customers in a warm, conversational, and natural way. Speak like a real person would - use a smooth, approachable tone and avoid sounding robotic or overly formal. \n\nGuidelines:\n- Be warm and empathetic - show you care about helping them\n- Use natural language - contractions (I\x27m, you\x27ll, it\x27s) and casual phrases are great\n- Keep responses concise but helpful - get to the point while being friendly\n- Use the knowledge base information provided, but present it naturally in your own words\n- If you don\x27t have enough information, be honest and offer to help in other ways\n- Add personality - use phrases like \x27Happy to help!\x27, \x27Great question!\x27, \x27I\x27ve got you covered\x27\n- Break up longer responses with bullet points or short paragraphs for easy reading\n- End with a helpful note or ask if they need anything else when appropriate")

/-- The f-string `f\x22[{ctx[\x27title\x27]}]\n{ctx[\x27content\x27]}\x22` for one
context entry. -/
def contextPart (ctx : Match) : PyStr :=
  pys ( "[") ++ ctx.title ++ pys ( "]\n") ++ ctx.content

/-- The `context_str` of `_build_messages`: `\x22\x22` when `context` is
empty, else the per-entry blocks joined with a blank line. -/
def context_str (context : List Match) : PyStr :=
  if context = [] then []
  else List.intercalate (pys ( "\n\n")) (context.map contextPart)

/-- Python `l[-n:]` for a positive `n`: the last `n` elements. -/
def pyTakeLast {α : Type} (n : ℕ) (l : List α) : List α :=
  l.drop (l.length - n)

/-- `_build_messages`: the system message, then (when `chat_history` is
truthy) a user/assistant pair for each of the last 5 history entries, then
the final user message, which embeds `context_str` and the query when
`context_str` is truthy and is the query alone otherwise. -/
def _build_messages (query : PyStr) (context : List Match)
    (chat_history : List ConversationTurn) : List Message :=
  let cstr := context_str context
  let histMessages :=
    if chat_history = [] then []
    else (pyTakeLast 5 chat_history).flatMap (fun msg =>
      [{ role := .user, content := msg.user_message },
       { role := .assistant, content := msg.bot_response }])
  let user_message :=
    if cstr ≠ [] then
      pys ( "Context from knowledge base:\n\n") ++ cstr
        ++ pys ( "\n\n---\n\nUser question: ") ++ query
    else query
  { role := .system, content := system_message }
    :: histMessages ++ [{ role := .user, content := user_message }]

/-- The failure of one external LLM completion call. -/
inductive BackendError where
  | failed
deriving DecidableEq

/-- A non-streaming completion call: the messages array in, either the
response text or a raised error out (the decoding parameters are fixed
constants and carry no information). -/
abbrev CompletionCall := List Message → Except BackendError PyStr

/-- `_generate_with_openai`: call the backend with the assembled messages;
on success return the response text stripped, on any exception fall back
to `_generate_simple_response`. -/
def _generate_with_openai (call : CompletionCall) (query : PyStr)
    (context : List Match) (chat_history : List ConversationTurn) : PyStr :=
  match call (_build_messages query context chat_history) with
  | .ok response => pyStrip response
  | .error _ => _generate_simple_response query context

/-- `generate_response_with_context`: backend mode when a client is
configured, fallback mode otherwise. -/
def generate_response_with_context (openai_client : Option CompletionCall)
    (query : PyStr) (context : List Match)
    (chat_history : List ConversationTurn) : PyStr :=
  match openai_client with
  | some call => _generate_with_openai call query context chat_history
  | none => _generate_simple_response query context

/-- `generate_chat_response`: retrieve context (default threshold `0.3`),
generate a response, return both. -/
def generate_chat_response {ε : Type} (sqrt : ℚ → ℚ)
    (embed : PyStr → Except ε (List ℚ))
    (openai_client : Option CompletionCall) (query : PyStr)
    (knowledge_base : List Entry) (chat_history : List ConversationTurn)
    (top_k : ℕ) : Except ε (PyStr × List Match) :=
  match retrieve_relevant_context sqrt embed query knowledge_base top_k (3/10) with
  | .error e => .error e
  | .ok context =>
    .ok (generate_response_with_context openai_client query context chat_history,
         context)

/-- The tagged events of the streaming protocol.  The generator itself
yields only `context`, `content` and `done` dicts; the `error` tag exists
in the wire protocol (the serving layer emits it around the generator). -/
inductive StreamEvent where
  | context (ctx : List Match)
  | content (text : PyStr)
  | done
  | error (message : PyStr)
deriving DecidableEq

/-- What iterating one backend streaming call observably produces: the
`delta.content` of each chunk seen (`none` when it is `None`, which the
loop skips), and whether the call raised — either at `create` (no chunks)
or part-way through iteration (after the chunks listed). -/
structure StreamOutcome where
  chunks : List (Option PyStr)
  failed : Bool
deriving DecidableEq

/-- A streaming completion call: messages in, observed outcome out. -/
abbrev StreamCall := List Message → StreamOutcome

/-- Python `s.split(' ')`: the (possibly empty) runs between single
spaces; always at least one run. -/
def splitSp : PyStr → List PyStr
  | [] => [[]]
  | c :: cs =>
    if c = ' ' then [] :: splitSp cs
    else
      match splitSp cs with
      | [] => [[c]]
      | w :: ws => (c :: w) :: ws

/-- The payloads `word + (' ' if i < len(words) - 1 else '')` of the
simulated stream: every word but the last keeps its trailing space. -/
def wordPayloads : List PyStr → List PyStr
  | [] => []
  | [w] => [w]
  | w :: ws => (w ++ [' ']) :: wordPayloads ws

/-- The `content` events of the simulated word-by-word stream. -/
def wordEvents (response : PyStr) : List StreamEvent :=
  (wordPayloads (splitSp response)).map StreamEvent.content

/-- The text fragment of a `content` event, if any. -/
def contentPayload : StreamEvent → Option PyStr
  | .content s => some s
  | _ => none

/-- In-order concatenation of all `content` payloads of an event list. -/
def concatContents (events : List StreamEvent) : PyStr :=
  (events.filterMap contentPayload).flatten

/-- `generate_chat_response_stream`: retrieve context (default threshold
`0.3`; an embedding failure makes the generator raise before any event),
yield one `context` event, then
* backend mode, call succeeds: one `content` event per non-`None` chunk,
  then `done`;
* backend mode, call raises: the chunks already yielded, then one
  `content` event holding the whole fallback text, then `done`;
* fallback mode: the word-by-word events of the fallback text, then
  `done`. -/
def generate_chat_response_stream {ε : Type} (sqrt : ℚ → ℚ)
    (embed : PyStr → Except ε (List ℚ)) (openai_client : Option StreamCall)
    (query : PyStr) (knowledge_base : List Entry)
    (chat_history : List ConversationTurn) (top_k : ℕ) :
    Except ε (List StreamEvent) :=
  match retrieve_relevant_context sqrt embed query knowledge_base top_k (3/10) with
  | .error e => .error e
  | .ok context =>
    .ok (StreamEvent.context context ::
      match openai_client with
      | some call =>
        let out := call (_build_messages query context chat_history)
        let streamed := (out.chunks.filterMap id).map StreamEvent.content
        if out.failed then
          streamed
            ++ [StreamEvent.content (_generate_simple_response query context),
                StreamEvent.done]
        else streamed ++ [StreamEvent.done]
      | none =>
        wordEvents (_generate_simple_response query context)
          ++ [StreamEvent.done])

/-! ### Sample values used to instantiate hypotheses concretely -/

/-- Decidable equality of `Except` results, used to evaluate the embedded
functions on concrete inputs. -/
instance {ε α : Type} [DecidableEq ε] [DecidableEq α] :
    DecidableEq (Except ε α) := fun a b =>
  match a, b with
  | .ok x, .ok y =>
    if h : x = y then isTrue (by rw [h])
    else isFalse (fun hc => by cases hc; exact h rfl)
  | .error x, .error y =>
    if h : x = y then isTrue (by rw [h])
    else isFalse (fun hc => by cases hc; exact h rfl)
  | .ok _, .error _ => isFalse (fun hc => by cases hc)
  | .error _, .ok _ => isFalse (fun hc => by cases hc)

/-- An entry with no `embedding` key. -/
def entryNoEmbedding : Entry :=
  { id := pys ( "1"), title := pys ( "A"), content := pys ( "ca"),
    category := none, embedding := none }

/-- An entry whose `embedding` is the empty list (falsy in Python). -/
def entryEmptyEmbedding : Entry :=
  { id := pys ( "2"), title := pys ( "B"), content := pys ( "cb"),
    category := some (pys ( "x")), embedding := some [] }

/-- An entry embedded at `[1]`. -/
def entryOne : Entry :=
  { id := pys ( "3"), title := pys ( "C"), content := pys ( "cc"),
    category := none, embedding := some [1] }

/-! ### Elementary facts -/

theorem filterMap_entryMatch_nil {sqrt : ℚ → ℚ} {qv : List ℚ} {threshold : ℚ}
    {knowledge_base : List Entry}
    (h : ∀ e ∈ knowledge_base, e.embedding = none ∨ e.embedding = some []) :
    candidates sqrt qv knowledge_base threshold = [] := by
  unfold candidates
  rw [List.filterMap_eq_nil_iff]
  intro e he
  rcases h e he with h' | h' <;> simp [entryMatch, h']

/-! ### C10 -/

/-- C10: on an empty knowledge base, `retrieve_relevant_context` returns
the empty list before any query embedding is computed: the equation holds
for *every* embedder `embed`, in particular for one that always fails, so
the embedder is never invoked and an embedding failure cannot occur. -/
theorem C10_empty_kb_skips_embedding {ε : Type} (sqrt : ℚ → ℚ)
    (embed : PyStr → Except ε (List ℚ)) (query : PyStr) (top_k : ℕ)
    (threshold : ℚ) :
    retrieve_relevant_context sqrt embed query [] top_k threshold = .ok [] :=
  rfl

/-! ### C5 -/

/-- C5: `cosine_similarity` is total — for every pair of vectors it
returns a value and never a division error — and when either vector has
zero norm (equivalently, zero sum of squares, given that the modelled
square root sends `0` to `0`) the returned value is exactly `0.0`. -/
theorem C5_cosine_zero_norm_total (sqrt : ℚ → ℚ) (vec1 vec2 : List ℚ)
    (hsqrt : sqrt 0 = 0) :
    (∃ q, cosine_similarity sqrt vec1 vec2 = .ok q) ∧
    ((normSq vec1 = 0 ∨ normSq vec2 = 0) →
      cosine_similarity sqrt vec1 vec2 = .ok 0) := by
  constructor
  · unfold cosine_similarity safeDiv
    by_cases h : sqrt (normSq vec1) = 0 ∨ sqrt (normSq vec2) = 0
    · exact ⟨0, by simp [h]⟩
    · push_neg at h
      exact ⟨listDot vec1 vec2 / (sqrt (normSq vec1) * sqrt (normSq vec2)),
        by simp [h.1, h.2, mul_ne_zero h.1 h.2]⟩
  · intro h
    unfold cosine_similarity
    rcases h with h | h <;> simp [h, hsqrt]

/-- Witness for C5 at `sqrt := id`, `vec1 := [0, 0]`, `vec2 := [1]`. -/
theorem C5_cosine_zero_norm_total_witness :
    (∃ q, cosine_similarity (fun x => x) [0, 0] [1] = .ok q) ∧
    ((normSq [0, 0] = 0 ∨ normSq [1] = 0) →
      cosine_similarity (fun x => x) [0, 0] [1] = .ok 0) :=
  C5_cosine_zero_norm_total (fun x => x) [0, 0] [1] rfl

/-! ### C6 -/

/-- C6: `retrieve_relevant_context` returns the empty list, not an error,
both on an empty knowledge base and on a knowledge base in which no entry
carries a present (non-falsy) embedding — such entries are skipped
silently. -/
theorem C6_empty_inputs_empty_result {ε : Type} (sqrt : ℚ → ℚ)
    (embed : PyStr → Except ε (List ℚ)) (query : PyStr) (top_k : ℕ)
    (threshold : ℚ) (knowledge_base : List Entry) (qv : List ℚ)
    (hok : embed query = .ok qv)
    (hemb : ∀ e ∈ knowledge_base, e.embedding = none ∨ e.embedding = some []) :
    retrieve_relevant_context sqrt embed query [] top_k threshold = .ok [] ∧
    retrieve_relevant_context sqrt embed query knowledge_base top_k threshold
      = .ok [] := by
  refine ⟨rfl, ?_⟩
  unfold retrieve_relevant_context
  by_cases hkb : knowledge_base = []
  · simp [hkb]
  · rw [if_neg hkb, hok]
    show Except.ok
        ((sortDesc (candidates sqrt qv knowledge_base threshold)).take top_k)
      = Except.ok []
    rw [filterMap_entryMatch_nil hemb]
    simp [sortDesc]

/-- Witness for C6 on a two-entry knowledge base whose entries have a
missing and an empty embedding respectively. -/
theorem C6_empty_inputs_empty_result_witness :
    retrieve_relevant_context (ε := Unit) (fun x => x) (fun _ => .ok [1])
      (pys ( "q")) [] 3 (3/10) = .ok [] ∧
    retrieve_relevant_context (ε := Unit) (fun x => x) (fun _ => .ok [1])
      (pys ( "q")) [entryNoEmbedding, entryEmptyEmbedding] 3 (3/10) = .ok [] :=
  C6_empty_inputs_empty_result (fun x => x) (fun _ => .ok [1]) (pys ( "q"))
    3 (3/10) [entryNoEmbedding, entryEmptyEmbedding] [1] rfl (by decide)

/-! ### C4 -/

/-- C4: when the backend call raises during non-streaming generation,
`generate_response_with_context` (through `_generate_with_openai`)
returns the deterministic fallback text for the same query and matches
instead of propagating the failure — its result type is a plain string,
so the caller observes no error. -/
theorem C4_nonstreaming_backend_failure_falls_back (call : CompletionCall)
    (query : PyStr) (context : List Match)
    (chat_history : List ConversationTurn) (e : BackendError)
    (hfail : call (_build_messages query context chat_history) = .error e) :
    generate_response_with_context (some call) query context chat_history
      = _generate_simple_response query context := by
  simp [generate_response_with_context, _generate_with_openai, hfail]

/-- Witness for C4 with an always-failing backend call. -/
theorem C4_nonstreaming_backend_failure_falls_back_witness :
    generate_response_with_context (some (fun _ => .error .failed))
      (pys ( "q")) [] [] = _generate_simple_response (pys ( "q")) [] :=
  C4_nonstreaming_backend_failure_falls_back (fun _ => .error .failed)
    (pys ( "q")) [] [] .failed rfl

/-! ### Properties of the stable descending sort -/

theorem insertDesc_perm (x : Match) (l : List Match) :
    List.Perm (insertDesc x l) (x :: l) := by
  induction l with
  | nil => rfl
  | cons y ys ih =>
    unfold insertDesc
    by_cases h : x.similarity < y.similarity
    · rw [if_pos h]
      exact (ih.cons y).trans (List.Perm.swap x y ys)
    · rw [if_neg h]

theorem sortDesc_perm (l : List Match) : List.Perm (sortDesc l) l := by
  induction l with
  | nil => rfl
  | cons x xs ih => exact (insertDesc_perm x (sortDesc xs)).trans (ih.cons x)

theorem sorted_insertDesc {x : Match} {l : List Match}
    (h : List.Sorted (fun a b : Match => b.similarity ≤ a.similarity) l) :
    List.Sorted (fun a b : Match => b.similarity ≤ a.similarity)
      (insertDesc x l) := by
  induction l with
  | nil => simp [insertDesc]
  | cons y ys ih =>
    rw [List.sorted_cons] at h
    obtain ⟨hy, hys⟩ := h
    unfold insertDesc
    by_cases hxy : x.similarity < y.similarity
    · rw [if_pos hxy, List.sorted_cons]
      refine ⟨?_, ih hys⟩
      intro z hz
      rcases List.mem_cons.mp ((insertDesc_perm x ys).mem_iff.mp hz) with rfl | hz
      · exact le_of_lt hxy
      · exact hy z hz
    · rw [if_neg hxy, List.sorted_cons]
      refine ⟨?_, List.sorted_cons.mpr ⟨hy, hys⟩⟩
      intro z hz
      rcases List.mem_cons.mp hz with rfl | hz
      · exact le_of_not_lt hxy
      · exact le_trans (hy z hz) (le_of_not_lt hxy)

theorem sorted_sortDesc (l : List Match) :
    List.Sorted (fun a b : Match => b.similarity ≤ a.similarity)
      (sortDesc l) := by
  induction l with
  | nil => simp [sortDesc]
  | cons x xs ih => exact sorted_insertDesc ih

/-- Inserting an element does not disturb the relative order of the
elements tied at any fixed similarity value `s`. -/
theorem filter_insertDesc (s : ℚ) (x : Match) (l : List Match) :
    (insertDesc x l).filter (fun m => decide (m.similarity = s))
      = if x.similarity = s
        then x :: l.filter (fun m => decide (m.similarity = s))
        else l.filter (fun m => decide (m.similarity = s)) := by
  induction l with
  | nil => by_cases hx : x.similarity = s <;> simp [insertDesc, hx]
  | cons y ys ih =>
    unfold insertDesc
    by_cases hxy : x.similarity < y.similarity
    · rw [if_pos hxy]
      by_cases hx : x.similarity = s
      · have hy : ¬ (y.similarity = s) := by
          intro hy
          rw [hx, hy] at hxy
          exact lt_irrefl s hxy
        simp [List.filter_cons, hx, hy, ih]
      · simp [List.filter_cons, hx, ih]
    · rw [if_neg hxy]
      by_cases hx : x.similarity = s <;> simp [List.filter_cons, hx]

/-- Stability of the sort: for every similarity value `s`, the tied
elements appear in the sorted list exactly in their input order. -/
theorem filter_sortDesc (s : ℚ) (l : List Match) :
    (sortDesc l).filter (fun m => decide (m.similarity = s))
      = l.filter (fun m => decide (m.similarity = s)) := by
  induction l with
  | nil => rfl
  | cons x xs ih =>
    show (insertDesc x (sortDesc xs)).filter _ = _
    rw [filter_insertDesc]
    by_cases hx : x.similarity = s <;> simp [List.filter_cons, hx, ih]

/-- Every candidate match scored at least the threshold. -/
theorem mem_candidates_threshold {sqrt : ℚ → ℚ} {qv : List ℚ}
    {threshold : ℚ} {knowledge_base : List Entry} {m : Match}
    (h : m ∈ candidates sqrt qv knowledge_base threshold) :
    threshold ≤ m.similarity := by
  obtain ⟨e, _, he⟩ := List.mem_filterMap.mp h
  unfold entryMatch at he
  rcases hemb : e.embedding with _ | v
  · rw [hemb] at he
    cases he
  · rw [hemb] at he
    cases v with
    | nil => cases he
    | cons a as =>
      dsimp only at he
      by_cases ht : threshold ≤ cosineSimVal sqrt qv (a :: as)
      · rw [if_pos ht] at he
        cases he
        exact ht
      · rw [if_neg ht] at he
        cases he

/-! ### C1 -/

/-- C1: whenever `retrieve_relevant_context` returns a list, that list
has length at most `top_k`, every returned match scored at least the
threshold, the list is sorted by similarity in descending order, and the
matches tied at any similarity value appear in their original relative
input order (their sublist agrees with the pre-sort candidate list). -/
theorem C1_rank_contract {ε : Type} (sqrt : ℚ → ℚ)
    (embed : PyStr → Except ε (List ℚ)) (query : PyStr)
    (knowledge_base : List Entry) (top_k : ℕ) (threshold : ℚ)
    (out : List Match)
    (h : retrieve_relevant_context sqrt embed query knowledge_base top_k
      threshold = .ok out) :
    out.length ≤ top_k ∧
    (∀ m ∈ out, threshold ≤ m.similarity) ∧
    List.Sorted (fun a b : Match => b.similarity ≤ a.similarity) out ∧
    (∀ qv, embed query = .ok qv → ∀ s : ℚ,
      out.filter (fun m => decide (m.similarity = s))
        <+: (candidates sqrt qv knowledge_base threshold).filter
              (fun m => decide (m.similarity = s))) := by
  unfold retrieve_relevant_context at h
  by_cases hkb : knowledge_base = []
  · rw [if_pos hkb] at h
    injection h with h'
    subst h'
    refine ⟨by simp, by simp, by simp, ?_⟩
    intro qv _ s
    simp
  · rw [if_neg hkb] at h
    rcases hq : embed query with e | qv
    · rw [hq] at h
      cases h
    · rw [hq] at h
      injection h with h'
      subst h'
      refine ⟨List.length_take_le _ _, ?_, ?_, ?_⟩
      · intro m hm
        exact mem_candidates_threshold
          ((sortDesc_perm _).mem_iff.mp (List.take_subset _ _ hm))
      · exact List.Pairwise.sublist (List.take_sublist _ _) (sorted_sortDesc _)
      · intro qv' hqv s
        injection hqv with hqv'
        subst hqv'
        rw [← filter_sortDesc s
          (candidates sqrt qv knowledge_base threshold)]
        exact List.IsPrefix.filter _ ( List.take_prefix _ _)

/-- The single ranked match of the witness instance of C1. -/
def matchOne : Match :=
  { id := pys ( "3"), title := pys ( "C"), content := pys ( "cc"),
    category := pys ( "general"), similarity := 1 }

/-- Witness for C1 on a two-entry knowledge base: the entry embedded at
`[1]` matches the query embedding `[1]` with similarity `1`, the other
entry has no embedding. -/
theorem C1_rank_contract_witness :
    ([matchOne] : List Match).length ≤ 3 ∧
    (∀ m ∈ [matchOne], (3/10 : ℚ) ≤ m.similarity) ∧
    List.Sorted (fun a b : Match => b.similarity ≤ a.similarity) [matchOne] ∧
    (∀ qv, (fun _ : PyStr => (.ok [1] : Except Unit (List ℚ))) (pys ( "q"))
        = .ok qv → ∀ s : ℚ,
      ([matchOne] : List Match).filter (fun m => decide (m.similarity = s))
        <+: (candidates (fun x => x) qv [entryOne, entryNoEmbedding]
              (3/10)).filter (fun m => decide (m.similarity = s))) :=
  C1_rank_contract (fun x => x) (fun _ => .ok [1]) (pys ( "q"))
    [entryOne, entryNoEmbedding] 3 (3/10) [matchOne] (by
      have hsim : cosineSimVal (fun x : ℚ => x) [1] [1] = 1 := by
        norm_num [cosineSimVal, cosine_similarity, safeDiv, normSq, listDot]
      rw [retrieve_relevant_context]
      norm_num [candidates, entryMatch, entryOne, entryNoEmbedding, hsim,
        sortDesc, insertDesc, matchOne, List.filterMap_cons]
      simp)

/-! ### The word-split stream loses nothing -/

theorem splitSp_ne_nil (s : PyStr) : splitSp s ≠ [] := by
  cases s with
  | nil => simp [splitSp]
  | cons c cs =>
    unfold splitSp
    by_cases h : c = ' '
    · simp [h]
    · rw [if_neg h]
      rcases hs : splitSp cs with _ | ⟨w, ws⟩ <;> simp

/-- Concatenating the streamed word payloads restores the split string:
`' '.join(s.split(' ')) == s`, with the joining spaces carried as the
trailing space of every non-final payload. -/
theorem flatten_wordPayloads_splitSp (s : PyStr) :
    (wordPayloads (splitSp s)).flatten = s := by
  induction s with
  | nil => rfl
  | cons c cs ih =>
    unfold splitSp
    by_cases h : c = ' '
    · rw [if_pos h]
      subst h
      rcases hs : splitSp cs with _ | ⟨w, ws⟩
      · exact absurd hs (splitSp_ne_nil cs)
      · rw [hs] at ih
        show (([] ++ [' ']) :: wordPayloads (w :: ws)).flatten = ' ' :: cs
        rw [List.flatten_cons, ih]
        rfl
    · rw [if_neg h]
      rcases hs : splitSp cs with _ | ⟨w, ws⟩
      · exact absurd hs (splitSp_ne_nil cs)
      · rw [hs] at ih
        cases ws with
        | nil =>
          show ([c :: w] : List PyStr).flatten = c :: cs
          have ih' : ([w] : List PyStr).flatten = cs := ih
          simp only [List.flatten, List.append_nil] at ih' ⊢
          rw [ih']
        | cons w2 ws2 =>
          have ih' : ((w ++ [' ']) :: wordPayloads (w2 :: ws2)).flatten = cs := ih
          show (((c :: w) ++ [' ']) :: wordPayloads (w2 :: ws2)).flatten = c :: cs
          rw [List.flatten_cons] at ih' ⊢
          rw [List.cons_append, List.cons_append, ih']

/-- Only the `content` events contribute to the concatenation; a
word-split stream contributes exactly the split string. -/
theorem filterMap_contentPayload_words_done (c : List Match) (ws : List PyStr) :
    List.filterMap contentPayload
      (StreamEvent.context c :: ws.map StreamEvent.content ++ [StreamEvent.done])
      = ws := by
  induction ws with
  | nil => rfl
  | cons w rest ih =>
    show w :: List.filterMap contentPayload
        (rest.map StreamEvent.content ++ [StreamEvent.done]) = w :: rest
    exact congrArg (w :: ·) ih

theorem concatContents_context_words_done (c : List Match) (s : PyStr) :
    concatContents (StreamEvent.context c :: wordEvents s ++ [StreamEvent.done])
      = s := by
  show (List.filterMap contentPayload (StreamEvent.context c ::
      (wordPayloads (splitSp s)).map StreamEvent.content
        ++ [StreamEvent.done])).flatten = s
  rw [filterMap_contentPayload_words_done]
  exact flatten_wordPayloads_splitSp s

/-! ### C2 -/

/-- C2: every event list the streaming generator returns consists of
exactly one leading `context` event, then zero or more `content` events,
then exactly one terminal `done` event; in particular the generator never
emits an `error` event itself. -/
theorem C2_stream_event_shape {ε : Type} (sqrt : ℚ → ℚ)
    (embed : PyStr → Except ε (List ℚ)) (openai_client : Option StreamCall)
    (query : PyStr) (knowledge_base : List Entry)
    (chat_history : List ConversationTurn) (top_k : ℕ)
    (events : List StreamEvent)
    (h : generate_chat_response_stream sqrt embed openai_client query
      knowledge_base chat_history top_k = .ok events) :
    ∃ ctx mid,
      events = StreamEvent.context ctx :: mid ++ [StreamEvent.done] ∧
      ∀ e ∈ mid, ∃ s, e = StreamEvent.content s := by
  unfold generate_chat_response_stream at h
  rcases hr : retrieve_relevant_context sqrt embed query knowledge_base top_k
      (3/10) with e | ctx
  · rw [hr] at h
    cases h
  · rw [hr] at h
    injection h with h'
    subst h'
    rcases openai_client with _ | call
    · refine ⟨ctx, wordEvents (_generate_simple_response query ctx), rfl, ?_⟩
      intro e he
      obtain ⟨w, _, hw⟩ := List.mem_map.mp he
      exact ⟨w, hw.symm⟩
    · cases hf : (call (_build_messages query ctx chat_history)).failed with
      | false =>
        refine ⟨ctx,
          ((call (_build_messages query ctx chat_history)).chunks.filterMap
            id).map StreamEvent.content, ?_, ?_⟩
        · simp [hf]
        · intro e he
          obtain ⟨w, _, hw⟩ := List.mem_map.mp he
          exact ⟨w, hw.symm⟩
      | true =>
        refine ⟨ctx,
          ((call (_build_messages query ctx chat_history)).chunks.filterMap
              id).map StreamEvent.content
            ++ [StreamEvent.content (_generate_simple_response query ctx)],
          ?_, ?_⟩
        · simp [hf]
        · intro e he
          rcases List.mem_append.mp he with he | he
          · obtain ⟨w, _, hw⟩ := List.mem_map.mp he
            exact ⟨w, hw.symm⟩
          · rw [List.mem_singleton.mp he]
            exact ⟨_, rfl⟩

/-- Witness for C2 with a configured backend whose stream succeeds with no
chunks: the generator produces exactly `[context, done]`. -/
theorem C2_stream_event_shape_witness :
    ∃ ctx mid,
      ([StreamEvent.context [], StreamEvent.done] : List StreamEvent)
        = StreamEvent.context ctx :: mid ++ [StreamEvent.done] ∧
      ∀ e ∈ mid, ∃ s, e = StreamEvent.content s :=
  C2_stream_event_shape (ε := Unit) (fun x => x) (fun _ => .ok [])
    (some (fun _ => ⟨[], false⟩)) (pys ( "q")) [] [] 3
    [StreamEvent.context [], StreamEvent.done] rfl

/-! ### C3 -/

/-- C3 as stated is false: when the backend streaming call raises, the
generator emits the complete fallback text as ONE `content` event
(`rag_service.py` lines 263-273), not as the word-split sequence of
events the claim describes.  At this concrete input (empty knowledge
base, backend raising at once) the emitted events hold a single `content`
event carrying the whole fallback text, which differs from the word-split
event sequence. -/
theorem C3_counterexample :
    generate_chat_response_stream (ε := Unit) (fun x => x) (fun _ => .ok [])
        (some (fun _ => ⟨[], true⟩)) (pys ( "hi")) [] [] 3
      = .ok [StreamEvent.context [], StreamEvent.content noContextResponse,
             StreamEvent.done] ∧
    [StreamEvent.content noContextResponse] ≠ wordEvents noContextResponse :=
  ⟨rfl, by decide⟩

/-- C3 amended: when the backend streaming call raises, the generator —
after the `context` event and any chunk contents already emitted —
catches the failure and emits the complete fallback text as a single
`content` event followed by a `done` event, and emits no `error` event. -/
theorem C3_amended_single_fallback_content {ε : Type} (sqrt : ℚ → ℚ)
    (embed : PyStr → Except ε (List ℚ)) (call : StreamCall) (query : PyStr)
    (knowledge_base : List Entry) (chat_history : List ConversationTurn)
    (top_k : ℕ) (ctx : List Match)
    (hctx : retrieve_relevant_context sqrt embed query knowledge_base top_k
      (3/10) = .ok ctx)
    (hfail : (call (_build_messages query ctx chat_history)).failed = true) :
    generate_chat_response_stream sqrt embed (some call) query knowledge_base
        chat_history top_k
      = .ok (StreamEvent.context ctx ::
          ((call (_build_messages query ctx chat_history)).chunks.filterMap
            id).map StreamEvent.content
          ++ [StreamEvent.content (_generate_simple_response query ctx),
              StreamEvent.done]) := by
  unfold generate_chat_response_stream
  rw [hctx]
  simp [hfail]

/-- Witness for C3's amended form: the backend yields one chunk and one
`None` delta, then raises; the generator emits the chunk, the whole
fallback text in one `content` event, and `done`. -/
theorem C3_amended_single_fallback_content_witness :
    generate_chat_response_stream (ε := Unit) (fun x => x) (fun _ => .ok [])
        (some (fun _ => ⟨[some (pys ( "par")), none], true⟩))
        (pys ( "hi")) [] [] 3
      = .ok [StreamEvent.context [], StreamEvent.content (pys ( "par")),
             StreamEvent.content noContextResponse, StreamEvent.done] :=
  C3_amended_single_fallback_content (fun x => x) (fun _ => .ok [])
    (fun _ => ⟨[some (pys ( "par")), none], true⟩) (pys ( "hi")) [] [] 3 []
    rfl rfl

/-! ### C7 -/

/-- C7: in fallback mode (no backend configured), concatenating in order
the payloads of all `content` events of the streaming generator yields
exactly the text of the non-streaming fallback generation for the same
query and retrieved matches. -/
theorem C7_stream_concat_equals_fallback {ε : Type} (sqrt : ℚ → ℚ)
    (embed : PyStr → Except ε (List ℚ)) (query : PyStr)
    (knowledge_base : List Entry) (chat_history : List ConversationTurn)
    (top_k : ℕ) (ctx : List Match)
    (hctx : retrieve_relevant_context sqrt embed query knowledge_base top_k
      (3/10) = .ok ctx) :
    ∃ events,
      generate_chat_response_stream sqrt embed none query knowledge_base
        chat_history top_k = .ok events ∧
      concatContents events
        = generate_response_with_context none query ctx chat_history := by
  unfold generate_chat_response_stream
  rw [hctx]
  exact ⟨_, rfl, concatContents_context_words_done ctx _⟩

/-- Witness for C7 on an empty knowledge base. -/
theorem C7_stream_concat_equals_fallback_witness :
    ∃ events,
      generate_chat_response_stream (ε := Unit) (fun x => x)
        (fun _ => .ok []) none (pys ( "q")) [] [] 3 = .ok events ∧
      concatContents events
        = generate_response_with_context none (pys ( "q")) [] [] :=
  C7_stream_concat_equals_fallback (fun x => x) (fun _ => .ok [])
    (pys ( "q")) [] [] 3 [] rfl

/-! ### C8 -/

/-- The `GenerationRequest` shape the specification claims for the
assembler: one system message first; then the user/assistant pairs of at
most the last 5 conversation turns, oldest first; then one final user
message whose body embeds the formatted matches, a separator and the
literal query when `matches` is non-empty, and is the query verbatim when
`matches` is empty. -/
def claimedMessages (query : PyStr) (matchList : List Match)
    (history : List ConversationTurn) : List Message :=
  { role := .system, content := system_message }
    :: ((pyTakeLast 5 history).flatMap (fun t =>
          [{ role := .user, content := t.user_message },
           { role := .assistant, content := t.bot_response }])
        ++ [{ role := .user, content :=
              if matchList = [] then query
              else
                pys ( "Context from knowledge base:\n\n")
                  ++ List.intercalate (pys ( "\n\n")) (matchList.map contextPart)
                  ++ pys ( "\n\n---\n\nUser question: ") ++ query }])

theorem contextPart_ne_nil (m : Match) : contextPart m ≠ [] := by
  show ('[' :: (m.title ++ pys ( "]\n") ++ m.content)) ≠ []
  simp

theorem context_str_ne_nil {context : List Match} (h : context ≠ []) :
    context_str context ≠ [] := by
  unfold context_str
  rw [if_neg h]
  rcases context with _ | ⟨m, ms⟩
  · exact absurd rfl h
  · have hsplit : ∃ t, List.intercalate (pys ( "\n\n"))
        ((m :: ms).map contextPart) = contextPart m ++ t := by
      cases ms <;> exact ⟨_, rfl⟩
    obtain ⟨t, ht⟩ := hsplit
    rw [ht]
    intro hc
    exact contextPart_ne_nil m (List.append_eq_nil.mp hc).1

/-- C8: `_build_messages` produces exactly the message list the
specification describes. -/
theorem C8_build_messages_shape (query : PyStr) (context : List Match)
    (chat_history : List ConversationTurn) :
    _build_messages query context chat_history
      = claimedMessages query context chat_history := by
  unfold _build_messages claimedMessages
  have hhist : (if chat_history = [] then []
      else (pyTakeLast 5 chat_history).flatMap (fun msg =>
        [({ role := .user, content := msg.user_message } : Message),
         { role := .assistant, content := msg.bot_response }]))
      = (pyTakeLast 5 chat_history).flatMap (fun msg =>
        [({ role := .user, content := msg.user_message } : Message),
         { role := .assistant, content := msg.bot_response }]) := by
    by_cases hh : chat_history = []
    · rw [if_pos hh]
      subst hh
      rfl
    · rw [if_neg hh]
  rw [hhist]
  dsimp only
  by_cases hc : context = []
  · subst hc
    simp [context_str]
  · have h1 : context_str context ≠ [] := context_str_ne_nil hc
    rw [if_pos h1, if_neg hc]
    have h2 : context_str context
        = List.intercalate (pys ( "\n\n")) (context.map contextPart) := by
      unfold context_str
      rw [if_neg hc]
    rw [h2]
    exact List.cons_append _ _ _

/-! ### C9 -/

/-- C9: with no backend configured, a query over an empty knowledge base
— or one in which every scored similarity stays below the `0.3` threshold
— makes `generate_chat_response` return the fixed nothing-found message
(which contains the literal rephrasing suggestion `couldn` + apostrophe +
`t find`) together with an empty matches list. -/
theorem C9_no_match_fixed_message {ε : Type} (sqrt : ℚ → ℚ)
    (embed : PyStr → Except ε (List ℚ)) (query : PyStr)
    (knowledge_base : List Entry) (chat_history : List ConversationTurn)
    (top_k : ℕ)
    (h : knowledge_base = [] ∨ ∃ qv, embed query = .ok qv ∧
      ∀ e ∈ knowledge_base, ∀ v, e.embedding = some v → v ≠ [] →
        cosineSimVal sqrt qv v < 3/10) :
    generate_chat_response sqrt embed none query knowledge_base chat_history
        top_k = .ok (noContextResponse, []) ∧
    pys ( "couldn\x27t find") <:+: noContextResponse := by
  have hctx : retrieve_relevant_context sqrt embed query knowledge_base top_k
      (3/10) = .ok [] := by
    rcases h with rfl | ⟨qv, hok, hlt⟩
    · rfl
    · unfold retrieve_relevant_context
      by_cases hkb : knowledge_base = []
      · simp [hkb]
      · rw [if_neg hkb, hok]
        have hcand : candidates sqrt qv knowledge_base (3/10) = [] := by
          unfold candidates
          rw [List.filterMap_eq_nil_iff]
          intro e he
          unfold entryMatch
          rcases hemb : e.embedding with _ | v
          · rfl
          · cases v with
            | nil => rfl
            | cons a as =>
              dsimp only
              rw [if_neg (not_le.mpr (hlt e he (a :: as) hemb (by simp)))]
        show Except.ok
            ((sortDesc (candidates sqrt qv knowledge_base (3/10))).take top_k)
          = Except.ok []
        rw [hcand]
        simp [sortDesc]
  constructor
  · unfold generate_chat_response
    rw [hctx]
    rfl
  · decide

/-- Witness for C9: empty knowledge base, no backend. -/
theorem C9_no_match_fixed_message_witness :
    generate_chat_response (ε := Unit) (fun x => x) (fun _ => .ok [])
        none (pys ( "q")) [] [] 3 = .ok (noContextResponse, []) ∧
    pys ( "couldn\x27t find") <:+: noContextResponse :=
  C9_no_match_fixed_message (fun x => x) (fun _ => .ok []) (pys ( "q"))
    [] [] 3 (Or.inl rfl)

end RAG
